import Mathlib

/-!
# Verification of the CVRP model builder, route decoder and instance parser

Shallow embedding of the vehicle-routing repository:

* `VRPInstance` and `VRPInstance.parse` embed `src/ortools/vrp_instance.py`
  (`VRPInstance.__init__`): reading of the header line and per-customer lines,
  with Python exceptions modelled by `Except ParseErr`.
* `modelConstraints` embeds the constraint generation of
  `src/cplex/solver_.py` (`VRPSolver.__init__`): the docplex model's
  constraint list in source order, with each linear (in)equality represented
  syntactically as an `AffExpr` pair.
* `decodeVehicle` / `decodeAll` embed the route-decoding loop of
  `VRPSolver.solve`: the `while True` loop is modelled with an explicit fuel
  parameter, `TraceResult.running` meaning the loop is still running after
  `fuel` iterations, and `TraceResult.noArc` the uncaught `ValueError` that
  Python's `list.index` raises when no entry equals 1.
* `VRPSolver.distance` / `routeDistance` / `routeLoad` / `customerCount` give the derived
  route quantities the specification speaks about (route distance, load,
  customer coverage).
-/

/-- Parsed problem data, mirroring the fields set by `VRPInstance.__init__`
(`vrp_instance.py`).  Counts are Python ints (`Int`), demands ints, and
coordinates are modelled as rationals (Python floats; the instance files use
short decimal literals, and no claim depends on binary-float rounding). -/
structure VRPInstance where
  num_customers : Int
  num_vehicles : Int
  vehicle_capacity : Int
  demand_of_customer : List Int
  x_coord_of_customer : List Rat
  y_coord_of_customer : List Rat
deriving DecidableEq, Repr

/-- Errors raised while parsing, mirroring the Python exceptions caught in
`VRPInstance.__init__`.  An `IndexError` ("list index out of range") carries
no position information; `int()` / `float()` failures carry the offending
token (as in `invalid literal for int() with base 10: '...'`), but no line
number. -/
inductive ParseErr where
  | indexError
  | badInt (token : String)
  | badFloat (token : String)
deriving DecidableEq, Repr

/-- Core Lean `String` functions (`trim`, `split`, `toInt?`) are defined by
well-founded recursion on byte positions and do not reduce in the kernel, so
the Python string operations used by `VRPInstance.__init__` are
re-implemented structurally on the character list `String.data`.
`splitFieldsAux` is Python `str.split()` (no argument): maximal runs of
non-whitespace characters, which also subsumes the `.strip()` the source
applies first. -/
def splitFieldsAux : List Char → List Char → List (List Char)
  | [], acc => if acc.isEmpty then [] else [acc.reverse]
  | c :: cs, acc =>
    if c.isWhitespace then
      if acc.isEmpty then splitFieldsAux cs []
      else acc.reverse :: splitFieldsAux cs []
    else splitFieldsAux cs (c :: acc)

/-- Python `line.strip().split()`. -/
def pySplit (s : String) : List String :=
  (splitFieldsAux s.data []).map fun cs => String.mk cs

/-- `customer_data[k]` — list indexing, raising `IndexError` when out of
range. -/
def getField (fs : List String) (k : Nat) : Except ParseErr String :=
  match fs[k]? with
  | some s => .ok s
  | none => .error .indexError

/-- Value of a digit run; `none` on the first non-digit character (the
empty run folds to the accumulator — emptiness is checked by callers). -/
def digitsToNatAux : List Char → Nat → Option Nat
  | [], acc => some acc
  | c :: cs, acc =>
    if c.isDigit then digitsToNatAux cs (acc * 10 + (c.toNat - 48)) else none

/-- Python `int(s)` on a whitespace-free field: an optional sign followed by
a nonempty digit run. -/
def charsToInt : List Char → Option Int
  | [] => none
  | c :: cs =>
    if c = '-' then
      match cs with
      | [] => none
      | _ => (digitsToNatAux cs 0).map fun n => -(n : Int)
    else if c = '+' then
      match cs with
      | [] => none
      | _ => (digitsToNatAux cs 0).map fun n => (n : Int)
    else (digitsToNatAux (c :: cs) 0).map fun n => (n : Int)

/-- Python `int(s)` lifted to the parser's error monad; a failure carries
the offending token (as `int()`'s `ValueError` message does). -/
def parseIntField (s : String) : Except ParseErr Int :=
  match charsToInt s.data with
  | some n => .ok n
  | none => .error (.badInt s)

/-- Split on every dot character, keeping empty parts. -/
def splitDot : List Char → List (List Char)
  | [] => [[]]
  | c :: cs =>
    if c = '.' then [] :: splitDot cs
    else
      match splitDot cs with
      | h :: t => (c :: h) :: t
      | [] => [[c]]

/-- Python `float(s)` restricted to plain decimal literals
`[sign] digits [. digits]` — the shape occurring in the instance files
(exponent and `inf`/`nan` forms are not modelled, and the decimal value is
kept exactly as a rational; no claim depends on binary-float rounding). -/
def charsToRat (cs0 : List Char) : Option Rat :=
  let core (t : List Char) : Option Rat :=
    match splitDot t with
    | [a] => if a.isEmpty then none else (digitsToNatAux a 0).map fun n => (n : Rat)
    | [a, b] =>
        if a.isEmpty && b.isEmpty then none
        else (digitsToNatAux a 0).bind fun na => (digitsToNatAux b 0).map fun nb =>
          (na : Rat) + (nb : Rat) / ((10 : Rat) ^ b.length)
    | _ => none
  match cs0 with
  | [] => none
  | c :: cs =>
    if c = '-' then (core cs).map (fun r => -r)
    else if c = '+' then core cs
    else core (c :: cs)

/-- Python `float(s)` lifted to the parser's error monad. -/
def parseFloatField (s : String) : Except ParseErr Rat :=
  match charsToRat s.data with
  | some q => .ok q
  | none => .error (.badFloat s)

/-- One iteration of the customer-data loop of `VRPInstance.__init__`:
`if i + 1 < len(lines)` parse `demand x y` from line `i+1`, otherwise keep
the zero-initialised entries `(0, 0.0, 0.0)`. -/
def parseRow (lines : List String) (i : Nat) : Except ParseErr (Int × Rat × Rat) :=
  match lines[i+1]? with
  | none => .ok (0, 0, 0)
  | some line => do
      let fs := pySplit line
      let d ← getField fs 0 >>= parseIntField
      let x ← getField fs 1 >>= parseFloatField
      let y ← getField fs 2 >>= parseFloatField
      pure (d, x, y)

/-- The customer-data loop `for i in range(num_customers)`: `k` rows remain,
the next to be produced being customer `i`.  The first Python exception
aborts the whole constructor, so `Except` short-circuiting is faithful. -/
def parseRows (lines : List String) : Nat → Nat → Except ParseErr (List (Int × Rat × Rat))
  | 0, _ => .ok []
  | k+1, i => do
      let r ← parseRow lines i
      let rest ← parseRows lines k (i+1)
      pure (r :: rest)

/-- Parsing of line 1: `numCustomers numVehicles vehicleCapacity`. -/
def parseHeader (lines : List String) : Except ParseErr (Int × Int × Int) := do
  let l0 ← match lines[0]? with
    | some l => Except.ok l
    | none => Except.error ParseErr.indexError
  let fs := pySplit l0
  let nc ← getField fs 0 >>= parseIntField
  let nv ← getField fs 1 >>= parseIntField
  let cap ← getField fs 2 >>= parseIntField
  pure (nc, nv, cap)

/-- `VRPInstance.__init__` on the list of lines of the file: header, then
one `demand x y` row per customer index, missing trailing lines silently
keeping their zero initialisation.  A raised exception makes the whole
construction fail (the Python code prints the exception text and calls
`exit(-1)`), so no partial instance escapes. -/
def VRPInstance.parse (lines : List String) : Except ParseErr VRPInstance := do
  let (nc, nv, cap) ← parseHeader lines
  let rows ← parseRows lines nc.toNat 0
  pure { num_customers := nc
         num_vehicles := nv
         vehicle_capacity := cap
         demand_of_customer := rows.map (fun r => r.1)
         x_coord_of_customer := rows.map (fun r => r.2.1)
         y_coord_of_customer := rows.map (fun r => r.2.2) }

/-! ## The docplex model built by `VRPSolver.__init__` -/

/-- Decision variables of the model: `edge_var[v][i][j]` and
`order_var[v][i]` (`solver_.py`, lines 14–29). -/
inductive Var where
  | edge (v i j : Nat)
  | order (v i : Nat)
deriving DecidableEq, Repr

/-- A linear expression: a list of `(coefficient, variable)` terms (in the
order docplex receives them) plus a constant. -/
structure AffExpr where
  terms : List (Int × Var)
  const : Int
deriving DecidableEq, Repr

/-- A docplex linear constraint, keeping the comparison operator exactly as
written in the source (`==`, `<=`, `>=`). -/
inductive Constr where
  | le (lhs rhs : AffExpr)
  | eq (lhs rhs : AffExpr)
  | ge (lhs rhs : AffExpr)
deriving DecidableEq, Repr

/-- `range(num_customers)` bound: Python `range` of a negative int is empty,
as is `Int.toNat`. -/
def nC (p : VRPInstance) : Nat := p.num_customers.toNat

/-- `range(num_vehicles)` bound. -/
def nV (p : VRPInstance) : Nat := p.num_vehicles.toNat

/-- A constant expression (a bare literal on one side of a constraint). -/
def constE (k : Int) : AffExpr := ⟨[], k⟩

/-- `model.sum(edge_var[v, c, :])` — outgoing flow of vehicle `v` from node
`c`. -/
def edgeRowOut (p : VRPInstance) (v c : Nat) : AffExpr :=
  ⟨(List.range (nC p)).map fun j => ((1 : Int), Var.edge v c j), 0⟩

/-- `model.sum(edge_var[v, :, c])` — incoming flow of vehicle `v` into node
`c`. -/
def edgeColIn (p : VRPInstance) (v c : Nat) : AffExpr :=
  ⟨(List.range (nC p)).map fun i => ((1 : Int), Var.edge v i c), 0⟩

/-- `model.sum(edge_var[:, :, c].flatten())` — incoming flow into `c` over
all vehicles (numpy flattening is row-major: vehicle outer, source inner). -/
def allIn (p : VRPInstance) (c : Nat) : AffExpr :=
  ⟨(List.range (nV p)).flatMap fun v =>
    (List.range (nC p)).map fun i => ((1 : Int), Var.edge v i c), 0⟩

/-- `model.sum(edge_var[:, c, :].flatten())` — outgoing flow out of `c` over
all vehicles. -/
def allOut (p : VRPInstance) (c : Nat) : AffExpr :=
  ⟨(List.range (nV p)).flatMap fun v =>
    (List.range (nC p)).map fun j => ((1 : Int), Var.edge v c j), 0⟩

/-- The constraints added for node `c` by the flow loop (`solver_.py`,
lines 34–48): for a non-depot node, incoming = 1 and outgoing = 1; for the
depot, incoming = outgoing; then, for every vehicle, per-vehicle incoming =
per-vehicle outgoing. -/
def flowCons (p : VRPInstance) (c : Nat) : List Constr :=
  (if c ≠ 0 then
    [Constr.eq (allIn p c) (constE 1), Constr.eq (allOut p c) (constE 1)]
   else
    [Constr.eq (allIn p c) (allOut p c)])
  ++ (List.range (nV p)).map fun v => Constr.eq (edgeColIn p v c) (edgeRowOut p v c)

/-- The whole flow loop `for c in range(num_customers)`. -/
def flowBlock (p : VRPInstance) : List Constr :=
  (List.range (nC p)).flatMap (flowCons p)

/-- The depot-visit constraints for vehicle `v` (`solver_.py`, lines 51–54):
depot out-degree ≤ 1, depot in-degree ≤ 1, out-degree = in-degree. -/
def depotCons (p : VRPInstance) (v : Nat) : List Constr :=
  [Constr.le (edgeRowOut p v 0) (constE 1),
   Constr.le (edgeColIn p v 0) (constE 1),
   Constr.eq (edgeRowOut p v 0) (edgeColIn p v 0)]

/-- The depot loop `for v in range(num_vehicles)`. -/
def depotBlock (p : VRPInstance) : List Constr :=
  (List.range (nV p)).flatMap (depotCons p)

/-- The capacity constraint for vehicle `v` (`solver_.py`, lines 57–64):
`model.scal_prod(terms=edge_var[v, c, :], coefs=demand_of_customer)` pairs
`edge_var[v][c][j]` with `demand[j]` — the demand of the arc's DESTINATION
`j`, not of the row node `c` — summed over all rows `c`, bounded by
`vehicle_capacity`. -/
def capacityCon (p : VRPInstance) (v : Nat) : Constr :=
  Constr.le
    ⟨(List.range (nC p)).flatMap fun c =>
      (List.range (nC p)).map fun j =>
        (p.demand_of_customer.getD j 0, Var.edge v c j), 0⟩
    (constE p.vehicle_capacity)

/-- The capacity loop. -/
def capacityBlock (p : VRPInstance) : List Constr :=
  (List.range (nV p)).map (capacityCon p)

/-- One MTZ constraint (`solver_.py`, lines 67–72):
`order[v][i] >= order[v][j] + 1 - num_customers * (1 - edge[v][i][j])`, the
right-hand side expanding to `order[v][j] + num_customers*edge[v][i][j] +
(1 - num_customers)`. -/
def mtzCon (p : VRPInstance) (v i j : Nat) : Constr :=
  Constr.ge
    ⟨[((1 : Int), Var.order v i)], 0⟩
    ⟨[((1 : Int), Var.order v j), (p.num_customers, Var.edge v i j)],
      1 - p.num_customers⟩

/-- The MTZ loops `for i in range(1, n): for j in range(1, n)` (note: `i = j`
is not excluded by the source). -/
def mtzBlock (p : VRPInstance) : List Constr :=
  (List.range (nV p)).flatMap fun v =>
    (List.range' 1 (nC p - 1)).flatMap fun i =>
      (List.range' 1 (nC p - 1)).map fun j => mtzCon p v i j

/-- All constraints added by `VRPSolver.__init__`, in source order. -/
def modelConstraints (p : VRPInstance) : List Constr :=
  flowBlock p ++ depotBlock p ++ capacityBlock p ++ mtzBlock p

/-- The built model (constraint system; the decision-variable enumeration and
the minimised distance objective are not needed by any claim). -/
structure CPModel where
  constraints : List Constr
deriving DecidableEq, Repr

/-- Model construction.  `VRPSolver.__init__` contains no deliberate input
validation; its only failure path is the `ValueError` that
`np.zeros((num_vehicles, num_customers, num_customers))` (`solver_.py`,
line 14, before any constraint is built) raises when either count is
negative.  For nonnegative counts — in particular for `numCustomers < 2`,
`numVehicles = 0`, or demands exceeding the capacity — the docplex model is
built unconditionally. -/
def VRPSolver.build (p : VRPInstance) : Except String CPModel :=
  if p.num_customers < 0 ∨ p.num_vehicles < 0 then
    .error "negative dimensions are not allowed"
  else
    .ok ⟨modelConstraints p⟩

/-! ## Syntactic linear form of a constraint -/

/-- Coefficient of variable `x` in an expression (summing repeated terms). -/
def AffExpr.coeffOf (e : AffExpr) (x : Var) : Int :=
  e.terms.foldl (fun a t => if t.2 = x then a + t.1 else a) 0

/-- Left-hand side of a constraint. -/
def Constr.lhsOf : Constr → AffExpr
  | .le a _ => a
  | .eq a _ => a
  | .ge a _ => a

/-- Right-hand side of a constraint. -/
def Constr.rhsOf : Constr → AffExpr
  | .le _ b => b
  | .eq _ b => b
  | .ge _ b => b

/-- The comparison operator of a constraint. -/
inductive RelTag where
  | le | eq | ge
deriving DecidableEq, Repr

/-- Tag of the comparison operator. -/
def Constr.tag : Constr → RelTag
  | .le _ _ => .le
  | .eq _ _ => .eq
  | .ge _ _ => .ge

/-- Net coefficient of `x` once everything is moved to the left-hand side. -/
def Constr.netCoeff (c : Constr) (x : Var) : Int :=
  c.lhsOf.coeffOf x - c.rhsOf.coeffOf x

/-- Net constant once everything is moved to the left-hand side. -/
def Constr.netConst (c : Constr) : Int :=
  c.lhsOf.const - c.rhsOf.const

/-- Two constraints state the same linear (in)equality: same operator, same
net constant and the same net coefficient on every variable (term order and
the side a term is written on do not matter). -/
def Constr.formEq (c c' : Constr) : Prop :=
  c.tag = c'.tag ∧ c.netConst = c'.netConst ∧ ∀ x, c.netCoeff x = c'.netCoeff x

/-- The variables mentioned (possibly with coefficient 0) by a constraint. -/
def Constr.varsOf (c : Constr) : List Var :=
  c.lhsOf.terms.map Prod.snd ++ c.rhsOf.terms.map Prod.snd

/-- Executable check for `Constr.formEq` (it suffices to compare coefficients
on the mentioned variables; see `Constr.formEq_iff_formEqB`). -/
def Constr.formEqB (c c' : Constr) : Bool :=
  decide (c.tag = c'.tag) && decide (c.netConst = c'.netConst) &&
    (c.varsOf ++ c'.varsOf).all fun x => decide (c.netCoeff x = c'.netCoeff x)

/-! ## The route decoder of `VRPSolver.solve` -/

/-- `[x.solution_value for x in self.edge_var[v, current, :]]`: the solved
values of the outgoing arcs of `current` for vehicle `v` (integer binary
variables; docplex reports them as `0`/`1`).  An assignment is a total map
`σ v i j` from the arc variables to values. -/
def rowVals (σ : Nat → Nat → Nat → Int) (n v cur : Nat) : List Int :=
  (List.range n).map (σ v cur)

/-- Python `list.index(1)`: the index of the FIRST entry equal to 1, `none`
when there is none (Python raises an uncaught `ValueError`). -/
def indexOfOne : List Int → Option Nat
  | [] => none
  | x :: xs => if x = 1 then some 0 else (indexOfOne xs).map (· + 1)

/-- Outcome of the `while True` route-tracing loop, run for `fuel`
iterations. -/
inductive TraceResult where
  /-- The loop broke out with `next == 0`; `tail` is the list of nodes
  appended after the initial depot. -/
  | closed (tail : List Nat)
  /-- `list.index(1)` raised `ValueError` at node `at_` (no selected arc). -/
  | noArc (at_ : Nat)
  /-- The loop is still running at node `at_` after `fuel` iterations: the
  source loop has no step bound, so this models non-termination when it
  holds for every fuel. -/
  | running (at_ : Nat)
deriving DecidableEq, Repr

/-- The body of the `while True` loop (`solver_.py`, lines 97–102), made
structurally recursive on a fuel counter. -/
def traceFrom (σ : Nat → Nat → Nat → Int) (n v : Nat) : Nat → Nat → TraceResult
  | 0, cur => .running cur
  | fuel+1, cur =>
    match indexOfOne (rowVals σ n v cur) with
    | none => .noArc cur
    | some nxt =>
      if nxt = 0 then .closed [0]
      else
        match traceFrom σ n v fuel nxt with
        | .closed t => .closed (nxt :: t)
        | r => r

/-- Decoding of one vehicle (`solver_.py`, lines 90–104): if no entry of the
depot row equals 1, emit the trivial route `[0, 0]` and continue; otherwise
run the tracing loop from the depot, the full route being the depot followed
by the appended tail.  (The source stores the node indices as strings; the
model keeps them as naturals.) -/
def decodeVehicle (σ : Nat → Nat → Nat → Int) (n v fuel : Nat) : TraceResult :=
  if 1 ∈ rowVals σ n v 0 then
    match traceFrom σ n v fuel 0 with
    | .closed t => .closed (0 :: t)
    | r => r
  else .closed [0, 0]

/-- Decoding of the vehicles in a list, collecting the routes; any vehicle
whose loop raises or fails to close makes the whole decode fail (in Python
the exception propagates out of `solve`, and non-termination hangs it). -/
def decodeVehicles (σ : Nat → Nat → Nat → Int) (n fuel : Nat) :
    List Nat → Option (List (List Nat))
  | [] => some []
  | v :: vs =>
    match decodeVehicle σ n v fuel with
    | .closed r => (decodeVehicles σ n fuel vs).map (r :: ·)
    | _ => none

/-- `for v in range(num_vehicles)` of `VRPSolver.solve`. -/
def decodeAll (σ : Nat → Nat → Nat → Int) (n numv fuel : Nat) :
    Option (List (List Nat)) :=
  decodeVehicles σ n fuel (List.range numv)

/-! ## Derived route quantities

`VRPSolver.solve` itself computes no per-route distance or load; these are
the derived quantities of §3 of the specification (a `Route`'s `distance`
and `load`) and the §8 coverage count, defined from the instance data the
way the specification words them.  `dist` is the Euclidean metric of
`VRPSolver.distance` (`solver_.py`, lines 114–117). -/

/-- `math.sqrt((x1-x2)**2 + (y1-y2)**2)` (`VRPSolver.distance`). -/
noncomputable def VRPSolver.distance (p : VRPInstance) (i j : Nat) : ℝ :=
  Real.sqrt
    (((p.x_coord_of_customer.getD i 0 - p.x_coord_of_customer.getD j 0) ^ 2
      + (p.y_coord_of_customer.getD i 0 - p.y_coord_of_customer.getD j 0) ^ 2 : ℚ) : ℝ)

/-- Total travelled distance of a route: the sum of `dist` over consecutive
nodes. -/
noncomputable def routeDistance (p : VRPInstance) : List Nat → ℝ
  | a :: b :: rest => VRPSolver.distance p a b + routeDistance p (b :: rest)
  | _ => 0

/-- Load of a route: the total demand of its non-depot nodes. -/
def routeLoad (p : VRPInstance) (r : List Nat) : Int :=
  ((r.filter (fun c => c ≠ 0)).map (fun c => p.demand_of_customer.getD c 0)).sum

/-- How many times customer `c` appears across a list of routes. -/
def customerCount (rs : List (List Nat)) (c : Nat) : Nat :=
  (rs.map (fun r => r.count c)).sum

/-! ## Concrete instances and assignments used by counterexamples and
witnesses -/

/-- Depot plus two customers with distinct demands 2 and 5, one vehicle,
capacity 10. -/
def inst3 : VRPInstance :=
  ⟨3, 1, 10, [0, 2, 5], [0, 0, 0], [0, 0, 0]⟩

/-- Depot plus two customers, one vehicle, capacity 1 — so that the route
`[0, 1, 0]` (load 2) exceeds the capacity. -/
def inst7 : VRPInstance :=
  ⟨3, 1, 1, [0, 2, 5], [0, 0, 0], [0, 0, 0]⟩

/-- Two nodes, one vehicle, capacity 3, and customer demand 5 > 3. -/
def instOverCap : VRPInstance :=
  ⟨2, 1, 3, [0, 5], [0, 0], [0, 0]⟩

/-- An assignment whose trace from the depot enters the 2-cycle `1 → 2 → 1`
and never returns to the depot. -/
def cycAssign : Nat → Nat → Nat → Int := fun _ i j =>
  if (i = 0 ∧ j = 1) ∨ (i = 1 ∧ j = 2) ∨ (i = 2 ∧ j = 1) then 1 else 0

/-- An assignment selecting TWO arcs out of the depot (`0→1` and `0→2`) and
the return arc `1→0`. -/
def dupAssign : Nat → Nat → Nat → Int := fun _ i j =>
  if (i = 0 ∧ (j = 1 ∨ j = 2)) ∨ (i = 1 ∧ j = 0) then 1 else 0

/-- The single-vehicle tour `0 → 1 → 0`, leaving customer 2 unvisited. -/
def skipAssign : Nat → Nat → Nat → Int := fun _ i j =>
  if (i = 0 ∧ j = 1) ∨ (i = 1 ∧ j = 0) then 1 else 0

/-- The all-zero assignment (no arc selected for any vehicle). -/
def zeroAssign : Nat → Nat → Nat → Int := fun _ _ _ => 0

/-- The capacity constraint AS CLAIM C1 STATES IT (comparison definition
following the specification's words, not the source): the sum over all
customers `c` and nodes `j` of `demand[c] * edgeVar[v][c][j]` — demand of
the arc's SOURCE `c` — bounded by `vehicleCapacity`. -/
def claimedCapacityCon (p : VRPInstance) (v : Nat) : Constr :=
  Constr.le
    ⟨(List.range (nC p)).flatMap fun c =>
      (List.range (nC p)).map fun j =>
        (p.demand_of_customer.getD c 0, Var.edge v c j), 0⟩
    (constE p.vehicle_capacity)

/-- Number of constraints of the built model with the linear form of a given
constraint. -/
def formCount (p : VRPInstance) (c : Constr) : Nat :=
  (modelConstraints p).countP (fun con => Constr.formEqB con c)

/-- A file declaring 2 customers but holding only 2 lines (header + depot):
customer 1 has no data line. -/
def shortLines : List String := ["2 1 5", "0 0 0"]

/-- The instance `VRPInstance.__init__` produces from `shortLines`:
customer 1 silently keeps demand 0 and coordinates (0, 0). -/
def shortInst : VRPInstance := ⟨2, 1, 5, [0, 0], [0, 0], [0, 0]⟩

/-! ## General lemmas -/

theorem AffExpr.coeffOf_of_not_mem {e : AffExpr} {x : Var}
    (h : x ∉ e.terms.map Prod.snd) : e.coeffOf x = 0 := by
  unfold AffExpr.coeffOf
  have key : ∀ (l : List (Int × Var)) (a : Int), (∀ t ∈ l, t.2 ≠ x) →
      l.foldl (fun a t => if t.2 = x then a + t.1 else a) a = a := by
    intro l
    induction l with
    | nil => intro a _; rfl
    | cons t ts ih =>
        intro a hl
        have ht : t.2 ≠ x := hl t (List.mem_cons_self t ts)
        simp only [List.foldl_cons, if_neg ht]
        exact ih a (fun u hu => hl u (List.mem_cons_of_mem t hu))
  apply key
  intro t ht hx
  exact h (List.mem_map.mpr ⟨t, ht, hx⟩)

theorem Constr.formEq_iff_formEqB (c c' : Constr) :
    Constr.formEq c c' ↔ Constr.formEqB c c' = true := by
  unfold Constr.formEq Constr.formEqB
  simp only [Bool.and_eq_true, decide_eq_true_eq, List.all_eq_true]
  constructor
  · rintro ⟨h1, h2, h3⟩
    exact ⟨⟨h1, h2⟩, fun x _ => h3 x⟩
  · rintro ⟨⟨h1, h2⟩, h3⟩
    refine ⟨h1, h2, fun x => ?_⟩
    by_cases hx : x ∈ c.varsOf ++ c'.varsOf
    · exact h3 x hx
    · have hxc : x ∉ c.varsOf := fun hm => hx (List.mem_append.mpr (Or.inl hm))
      have hxc' : x ∉ c'.varsOf := fun hm => hx (List.mem_append.mpr (Or.inr hm))
      have z1 : c.netCoeff x = 0 := by
        unfold Constr.netCoeff
        unfold Constr.varsOf at hxc
        rw [AffExpr.coeffOf_of_not_mem (fun hm => hxc (List.mem_append.mpr (Or.inl hm))),
            AffExpr.coeffOf_of_not_mem (fun hm => hxc (List.mem_append.mpr (Or.inr hm)))]
        ring
      have z2 : c'.netCoeff x = 0 := by
        unfold Constr.netCoeff
        unfold Constr.varsOf at hxc'
        rw [AffExpr.coeffOf_of_not_mem (fun hm => hxc' (List.mem_append.mpr (Or.inl hm))),
            AffExpr.coeffOf_of_not_mem (fun hm => hxc' (List.mem_append.mpr (Or.inr hm)))]
        ring
      rw [z1, z2]

theorem except_bind_ok {ε α β : Type} {x : Except ε α} {f : α → Except ε β} {b : β}
    (h : (x >>= f) = Except.ok b) : ∃ a, x = Except.ok a ∧ f a = Except.ok b := by
  cases x with
  | error e => simp [Bind.bind, Except.bind] at h
  | ok a => exact ⟨a, rfl, by simpa [Bind.bind, Except.bind] using h⟩

theorem except_pure_ok {ε α : Type} {a b : α}
    (h : (pure a : Except ε α) = Except.ok b) : a = b := by
  simpa [pure, Except.pure] using h

/-- Rows of the customer loop whose data line is past the end of the file
keep the zero-initialised `(0, 0.0, 0.0)`. -/
theorem parseRows_default (lines : List String) :
    ∀ (k i0 : Nat) (rows : List (Int × Rat × Rat)),
      parseRows lines k i0 = Except.ok rows →
      ∀ t, t < k → lines.length ≤ i0 + t + 1 → rows[t]? = some (0, 0, 0) := by
  intro k
  induction k with
  | zero => intro i0 rows _ t ht; omega
  | succ k ih =>
    intro i0 rows h t ht hlen
    simp only [parseRows] at h
    obtain ⟨r, hr, h2⟩ := except_bind_ok h
    obtain ⟨rest, hrest, hpure⟩ := except_bind_ok h2
    have hrows : r :: rest = rows := except_pure_ok hpure
    subst hrows
    cases t with
    | zero =>
      have hnone : lines[i0+1]? = none := List.getElem?_eq_none (by omega)
      simp only [parseRow, hnone] at hr
      have : (0, (0 : Rat), (0 : Rat)) = r := by
        simpa using hr
      simp [← this]
    | succ t' =>
      have := ih (i0+1) rest hrest t' (by omega) (by omega)
      simpa using this

/-! ## Claims C9 and C10: instance-file parsing -/

/-- C10: for every instance file whose first line declares `numCustomers`
but which contains fewer than `numCustomers + 1` lines, instance
construction succeeds anyway (witnessed on `shortLines`), and every
customer index `i` with no corresponding data line is silently given
demand 0 and coordinates (0, 0). -/
theorem C10_missing_lines_default :
    VRPInstance.parse shortLines = Except.ok shortInst ∧
    ∀ (lines : List String) (inst : VRPInstance),
      VRPInstance.parse lines = Except.ok inst →
      ∀ i, i < nC inst → lines.length ≤ i + 1 →
        inst.demand_of_customer[i]? = some 0 ∧
        inst.x_coord_of_customer[i]? = some 0 ∧
        inst.y_coord_of_customer[i]? = some 0 := by
  constructor
  · rfl
  · intro lines inst h i hi hlen
    unfold VRPInstance.parse at h
    obtain ⟨⟨nc, nv, cap⟩, hH, h2⟩ := except_bind_ok h
    simp only at h2
    obtain ⟨rows, hrows, hpure⟩ := except_bind_ok h2
    have hinst := except_pure_ok hpure
    subst hinst
    have hi' : i < nc.toNat := by
      simpa [nC] using hi
    have hdef := parseRows_default lines nc.toNat 0 rows hrows i hi' (by omega)
    refine ⟨?_, ?_, ?_⟩ <;>
      simp [List.getElem?_map, hdef]

/-- Witness for C10 at the concrete short file. -/
theorem C10_missing_lines_default_witness :
    shortInst.demand_of_customer[1]? = some 0 ∧
    shortInst.x_coord_of_customer[1]? = some 0 ∧
    shortInst.y_coord_of_customer[1]? = some 0 :=
  C10_missing_lines_default.2 shortLines shortInst
    C10_missing_lines_default.1 1 (by decide) (by decide)

/-- C9 counterexample: a file declaring 3 customers with only 2 data lines
(a malformed line count) does NOT fail with a parse error — construction
succeeds, with customer 2 silently defaulted. -/
theorem C9_short_file_counterexample :
    VRPInstance.parse ["3 1 10", "0 0 0", "2 1 0"] =
      Except.ok ⟨3, 1, 10, [0, 2, 0], [0, 1, 0], [0, 0, 0]⟩ := by
  rfl

/-- C9 (amended): a missing data line does not fail (see the
counterexample and C10); a non-numeric field does make construction fail,
with an error carrying the offending token — but no line number — and no
instance is produced. -/
theorem C9_bad_field_error :
    VRPInstance.parse ["3 1 10", "0 0 0", "abc 1 0", "1 2 3"] =
      Except.error (ParseErr.badInt "abc") := by
  rfl

/-! ## Shape of the constraint blocks -/

theorem flowBlock_shape {p : VRPInstance} {con : Constr} (h : con ∈ flowBlock p) :
    ∃ a b, con = Constr.eq a b := by
  rcases List.mem_flatMap.mp h with ⟨c, _, hmem⟩
  unfold flowCons at hmem
  rcases List.mem_append.mp hmem with h1 | h2
  · by_cases hc : c ≠ 0
    · rw [if_pos hc] at h1
      simp only [List.mem_cons, List.not_mem_nil, or_false] at h1
      rcases h1 with rfl | rfl
      · exact ⟨_, _, rfl⟩
      · exact ⟨_, _, rfl⟩
    · rw [if_neg hc] at h1
      simp only [List.mem_cons, List.not_mem_nil, or_false] at h1
      subst h1
      exact ⟨_, _, rfl⟩
  · rcases List.mem_map.mp h2 with ⟨v, _, rfl⟩
    exact ⟨_, _, rfl⟩

theorem depotBlock_shape {p : VRPInstance} {con : Constr} (h : con ∈ depotBlock p) :
    (∃ a b, con = Constr.le a b ∧ a.terms.length = nC p) ∨
    (∃ a b, con = Constr.eq a b) := by
  rcases List.mem_flatMap.mp h with ⟨v, _, hmem⟩
  unfold depotCons at hmem
  simp only [List.mem_cons, List.not_mem_nil, or_false] at hmem
  rcases hmem with rfl | rfl | rfl
  · exact Or.inl ⟨_, _, rfl, by simp [edgeRowOut]⟩
  · exact Or.inl ⟨_, _, rfl, by simp [edgeColIn]⟩
  · exact Or.inr ⟨_, _, rfl⟩

theorem capacityBlock_shape {p : VRPInstance} {con : Constr} (h : con ∈ capacityBlock p) :
    ∃ v, v < nV p ∧ con = capacityCon p v := by
  rcases List.mem_map.mp h with ⟨v, hv, rfl⟩
  exact ⟨v, List.mem_range.mp hv, rfl⟩

theorem mtzBlock_shape {p : VRPInstance} {con : Constr} (h : con ∈ mtzBlock p) :
    ∃ v i j, v < nV p ∧ 1 ≤ i ∧ i < nC p ∧ 1 ≤ j ∧ j < nC p ∧
      con = mtzCon p v i j := by
  rcases List.mem_flatMap.mp h with ⟨v, hv, hmem⟩
  rcases List.mem_flatMap.mp hmem with ⟨i, hi, hmem2⟩
  rcases List.mem_map.mp hmem2 with ⟨j, hj, rfl⟩
  have hv' := List.mem_range.mp hv
  have hi' := List.mem_range'_1.mp hi
  have hj' := List.mem_range'_1.mp hj
  exact ⟨v, i, j, hv', hi'.1, by omega, hj'.1, by omega, rfl⟩

theorem sum_map_length_const {α β : Type} (l : List α) (f : α → List β) (k : Nat)
    (h : ∀ a, (f a).length = k) : (l.map (List.length ∘ f)).sum = l.length * k := by
  induction l with
  | nil => simp
  | cons x xs ih => simp [Function.comp, h, ih, Nat.succ_mul, Nat.add_comm]

theorem capacityCon_lhs_length (p : VRPInstance) (v : Nat) :
    (capacityCon p v).lhsOf.terms.length = nC p * nC p := by
  simp only [capacityCon, Constr.lhsOf]
  rw [List.length_flatMap, sum_map_length_const _ _ (nC p) (fun a => by simp),
    List.length_range]

theorem capacityCon_inj (p : VRPInstance) (hn : 1 ≤ nC p) :
    Function.Injective (capacityCon p) := by
  intro v1 v2 h
  obtain ⟨m, hm⟩ : ∃ m, nC p = m + 1 := ⟨nC p - 1, by omega⟩
  unfold capacityCon at h
  rw [hm, List.range_succ_eq_map] at h
  simp only [List.flatMap_cons, List.map_cons, Constr.le.injEq, AffExpr.mk.injEq,
    List.cons_append, List.cons.injEq, Prod.mk.injEq, Var.edge.injEq] at h
  exact h.1.1.1.2.1

/-! ## Claim C1: the capacity constraint -/

/-- C1 counterexample: on the concrete instance `inst3` (demands `[0,2,5]`),
NO constraint of the built model has the linear form the claim states
(`demand[c] * edgeVar[v][c][j]`, weighting by the arc's source) — in
particular there is not exactly one such capacity constraint — while
exactly one constraint has the source's actual form
(`demand[j] * edgeVar[v][c][j]`, weighting by the arc's destination). -/
theorem C1_capacity_source_weight_counterexample :
    formCount inst3 (claimedCapacityCon inst3 0) = 0 ∧
    formCount inst3 (capacityCon inst3 0) = 1 := by
  decide

/-- C1 (amended): for every vehicle `v`, the built model contains exactly
one capacity constraint, namely `capacityCon p v`: the sum over all rows `c`
and nodes `j` of `demand[j] * edgeVar[v][c][j]` — the demand of the arc's
DESTINATION (equivalently, the demand-weighted incoming flow of vehicle `v`)
— is at most `vehicleCapacity`. -/
theorem C1_capacity_constraint_unique (p : VRPInstance) (v : Nat)
    (hn : 2 ≤ nC p) (hv : v < nV p) :
    (modelConstraints p).count (capacityCon p v) = 1 := by
  unfold modelConstraints
  rw [List.count_append, List.count_append, List.count_append]
  have hflow : (flowBlock p).count (capacityCon p v) = 0 := by
    rw [List.count_eq_zero]
    intro hmem
    obtain ⟨a, b, hab⟩ := flowBlock_shape hmem
    simp [capacityCon] at hab
  have hdep : (depotBlock p).count (capacityCon p v) = 0 := by
    rw [List.count_eq_zero]
    intro hmem
    rcases depotBlock_shape hmem with ⟨a, b, hab, hlen⟩ | ⟨a, b, hab⟩
    · have h1 := capacityCon_lhs_length p v
      rw [hab] at h1
      simp only [Constr.lhsOf] at h1
      rw [h1] at hlen
      have h2 : 2 * nC p ≤ nC p * nC p := Nat.mul_le_mul hn (le_refl _)
      rw [hlen] at h2
      omega
    · simp [capacityCon] at hab
  have hmtz : (mtzBlock p).count (capacityCon p v) = 0 := by
    rw [List.count_eq_zero]
    intro hmem
    obtain ⟨v', i, j, _, _, _, _, _, hab⟩ := mtzBlock_shape hmem
    simp [capacityCon, mtzCon] at hab
  have hcap : (capacityBlock p).count (capacityCon p v) = 1 := by
    unfold capacityBlock
    refine List.count_eq_one_of_mem ?_ ?_
    · exact (List.nodup_range (nV p)).map (capacityCon_inj p (by omega))
    · exact List.mem_map.mpr ⟨v, List.mem_range.mpr hv, rfl⟩
  rw [hflow, hdep, hmtz, hcap]

/-- Witness for C1 (amended) on the concrete instance `inst3`. -/
theorem C1_capacity_constraint_unique_witness :
    (modelConstraints inst3).count (capacityCon inst3 0) = 1 :=
  C1_capacity_constraint_unique inst3 0 (by decide) (by decide)

/-! ## Claims C2 and C3: MTZ and degree constraints -/

/-- C2: for every vehicle `v` and all non-depot customers `i, j`, the model
contains the MTZ constraint
`orderVar[v][i] ≥ orderVar[v][j] + 1 − numCustomers·(1 − edgeVar[v][i][j])`;
conversely every `≥`-constraint of the model is such an MTZ constraint for
some `v` and non-depot `i, j ≥ 1`, and none of them carries a nonzero
coefficient on any depot order variable `orderVar[w][0]`. -/
theorem C2_mtz_constraints (p : VRPInstance) :
    (∀ v i j, v < nV p → 1 ≤ i → i < nC p → 1 ≤ j → j < nC p →
      mtzCon p v i j ∈ modelConstraints p) ∧
    (∀ con ∈ modelConstraints p, con.tag = RelTag.ge →
      (∃ v i j, v < nV p ∧ 1 ≤ i ∧ i < nC p ∧ 1 ≤ j ∧ j < nC p ∧
        con = mtzCon p v i j) ∧
      ∀ w, con.netCoeff (Var.order w 0) = 0) := by
  constructor
  · intro v i j hv hi1 hi2 hj1 hj2
    unfold modelConstraints
    apply List.mem_append_right
    unfold mtzBlock
    refine List.mem_flatMap.mpr ⟨v, List.mem_range.mpr hv, ?_⟩
    refine List.mem_flatMap.mpr ⟨i, List.mem_range'_1.mpr ⟨hi1, by omega⟩, ?_⟩
    exact List.mem_map.mpr ⟨j, List.mem_range'_1.mpr ⟨hj1, by omega⟩, rfl⟩
  · intro con hcon htag
    have hmtz : ∃ v i j, v < nV p ∧ 1 ≤ i ∧ i < nC p ∧ 1 ≤ j ∧ j < nC p ∧
        con = mtzCon p v i j := by
      unfold modelConstraints at hcon
      rcases List.mem_append.mp hcon with h1 | hD
      · rcases List.mem_append.mp h1 with h2 | hC
        · rcases List.mem_append.mp h2 with hA | hB
          · obtain ⟨a, b, rfl⟩ := flowBlock_shape hA
            simp [Constr.tag] at htag
          · rcases depotBlock_shape hB with ⟨a, b, rfl, _⟩ | ⟨a, b, rfl⟩ <;>
              simp [Constr.tag] at htag
        · obtain ⟨v, _, rfl⟩ := capacityBlock_shape hC
          simp [capacityCon, Constr.tag] at htag
      · exact mtzBlock_shape hD
    refine ⟨hmtz, ?_⟩
    obtain ⟨v, i, j, _, hi1, _, hj1, _, rfl⟩ := hmtz
    intro w
    have hi0 : i ≠ 0 := by omega
    have hj0 : j ≠ 0 := by omega
    simp [mtzCon, Constr.netCoeff, Constr.lhsOf, Constr.rhsOf, AffExpr.coeffOf,
      Var.order.injEq, hi0, hj0]

/-- Witness for C2 on the concrete instance `inst3`. -/
theorem C2_mtz_constraints_witness :
    mtzCon inst3 0 1 2 ∈ modelConstraints inst3 :=
  (C2_mtz_constraints inst3).1 0 1 2 (by decide) (by decide) (by decide)
    (by decide) (by decide)

/-- C3: for every non-depot customer `c`, the model contains the constraint
"total incoming flow into `c` over all vehicles and sources = 1" and the
constraint "total outgoing flow out of `c` over all vehicles and
destinations = 1". -/
theorem C3_degree_constraints (p : VRPInstance) (c : Nat)
    (h1 : 1 ≤ c) (h2 : c < nC p) :
    Constr.eq (allIn p c) (constE 1) ∈ modelConstraints p ∧
    Constr.eq (allOut p c) (constE 1) ∈ modelConstraints p := by
  have hc0 : c ≠ 0 := by omega
  constructor <;>
  · apply List.mem_append_left
    apply List.mem_append_left
    apply List.mem_append_left
    refine List.mem_flatMap.mpr ⟨c, List.mem_range.mpr h2, ?_⟩
    unfold flowCons
    apply List.mem_append_left
    rw [if_pos hc0]
    simp

/-- Witness for C3 on the concrete instance `inst3`, customer 1. -/
theorem C3_degree_constraints_witness :
    Constr.eq (allIn inst3 1) (constE 1) ∈ modelConstraints inst3 :=
  (C3_degree_constraints inst3 1 (by decide) (by decide)).1

/-! ## Claim C4: the decoding loop has no step bound -/

/-- C4 counterexample: on the assignment `cycAssign` (trace
`0 → 1 → 2 → 1 → 2 → …`), after `numCustomers = 3` loop iterations — and
still after 100 — the decoder neither closed the tour nor reported any
error: the loop is simply still running. -/
theorem C4_no_step_bound_counterexample :
    decodeVehicle cycAssign 3 0 3 = TraceResult.running 1 ∧
    decodeVehicle cycAssign 3 0 100 = TraceResult.running 2 := by
  constructor <;> rfl

/-- C4 (amended): the decoding loop terminates only when the traced next
node is the depot; it imposes NO step bound and reports no decoding error —
on an assignment whose trace cycles without reaching the depot the loop
runs forever (for every iteration bound it is still running). -/
theorem C4_decoder_diverges :
    ∀ fuel, ∃ c, decodeVehicle cycAssign 3 0 fuel = TraceResult.running c := by
  have step1 : ∀ k, traceFrom cycAssign 3 0 (k+1) 1 =
      (match traceFrom cycAssign 3 0 k 2 with
       | TraceResult.closed t => TraceResult.closed (2 :: t)
       | r => r) := fun k => rfl
  have step2 : ∀ k, traceFrom cycAssign 3 0 (k+1) 2 =
      (match traceFrom cycAssign 3 0 k 1 with
       | TraceResult.closed t => TraceResult.closed (1 :: t)
       | r => r) := fun k => rfl
  have key : ∀ k, (∃ c, traceFrom cycAssign 3 0 k 1 = TraceResult.running c) ∧
      (∃ c, traceFrom cycAssign 3 0 k 2 = TraceResult.running c) := by
    intro k
    induction k with
    | zero => exact ⟨⟨1, rfl⟩, ⟨2, rfl⟩⟩
    | succ k ih =>
      refine ⟨?_, ?_⟩
      · obtain ⟨c, hc⟩ := ih.2
        exact ⟨c, by rw [step1, hc]⟩
      · obtain ⟨c, hc⟩ := ih.1
        exact ⟨c, by rw [step2, hc]⟩
  intro fuel
  cases fuel with
  | zero => exact ⟨0, rfl⟩
  | succ k =>
    obtain ⟨c, hc⟩ := (key k).1
    refine ⟨c, ?_⟩
    have hd : decodeVehicle cycAssign 3 0 (k+1) =
        (match (match traceFrom cycAssign 3 0 k 1 with
                | TraceResult.closed t => TraceResult.closed (1 :: t)
                | r => r) with
         | TraceResult.closed t => TraceResult.closed (0 :: t)
         | r => r) := rfl
    rw [hd, hc]

/-! ## Claim C5: no build-time validation -/

/-- C5 counterexample: on `instOverCap` (customer demand 5 > capacity 3)
model construction does not fail — the full model is built and handed on
(its constraint list is the usual, non-empty one). -/
theorem C5_no_configuration_error_counterexample :
    VRPSolver.build instOverCap = Except.ok ⟨modelConstraints instOverCap⟩ ∧
    instOverCap.vehicle_capacity <
      instOverCap.demand_of_customer.getD 1 0 ∧
    (modelConstraints instOverCap).length = 10 := by
  refine ⟨rfl, by decide, by decide⟩

/-- C5 (amended): `VRPSolver.__init__` performs no configuration check.
For every instance with nonnegative counts — including `numCustomers < 2`,
`numVehicles = 0`, and demands exceeding the capacity — construction
succeeds and the capacity constraints (carrying any over-capacity demand)
are part of the model handed to the solver.  The only failure is the
accidental numpy `ValueError` when `numCustomers` or `numVehicles` is
negative, not a configuration error for the claimed conditions. -/
theorem C5_build_no_validation (p : VRPInstance) :
    (0 ≤ p.num_customers → 0 ≤ p.num_vehicles →
      VRPSolver.build p = Except.ok ⟨modelConstraints p⟩ ∧
      ∀ v, v < nV p → capacityCon p v ∈ modelConstraints p) ∧
    (p.num_customers < 0 ∨ p.num_vehicles < 0 →
      VRPSolver.build p = Except.error "negative dimensions are not allowed") := by
  constructor
  · intro hc hv
    have hcond : ¬ (p.num_customers < 0 ∨ p.num_vehicles < 0) := by omega
    refine ⟨by simp [VRPSolver.build, hcond], fun v hvlt => ?_⟩
    apply List.mem_append_left
    apply List.mem_append_right
    exact List.mem_map.mpr ⟨v, List.mem_range.mpr hvlt, rfl⟩
  · intro hneg
    simp [VRPSolver.build, hneg]

/-- Witness for C5 (amended) on the over-capacity instance. -/
theorem C5_build_no_validation_witness :
    capacityCon instOverCap 0 ∈ modelConstraints instOverCap :=
  ((C5_build_no_validation instOverCap).1 (by decide) (by decide)).2 0 (by decide)

/-! ## Claim C6: multiple selected outgoing arcs -/

/-- C6 counterexample: under `dupAssign` TWO outgoing arcs of the depot are
selected (`0→1` and `0→2`; the depot row counts two entries equal to 1),
yet the decoder silently follows the first one and returns the route
`[0, 1, 0]` — no inconsistency is reported. -/
theorem C6_duplicate_arc_counterexample :
    (rowVals dupAssign 3 0 0).count 1 = 2 ∧
    decodeVehicle dupAssign 3 0 5 = TraceResult.closed [0, 1, 0] := by
  constructor <;> rfl

/-- C6 (amended): the decoder's next-node selection is Python's
`list.index(1)`: it returns the FIRST index holding 1 — every earlier index
does not hold 1 — and never reports multiple selected arcs. -/
theorem C6_first_match (l : List Int) (k : Nat) (h : indexOfOne l = some k) :
    l[k]? = some 1 ∧ ∀ m, m < k → l[m]? ≠ some 1 := by
  induction l generalizing k with
  | nil => simp [indexOfOne] at h
  | cons x xs ih =>
    by_cases hx : x = 1
    · rw [indexOfOne, if_pos hx] at h
      have hk : k = 0 := by
        simpa using h.symm
      subst hk
      refine ⟨by simp [hx], fun m hm => by omega⟩
    · rw [indexOfOne, if_neg hx] at h
      rcases Option.map_eq_some'.mp h with ⟨a, ha, hak⟩
      subst hak
      obtain ⟨h1, h2⟩ := ih a ha
      refine ⟨by simpa using h1, fun m hm => ?_⟩
      cases m with
      | zero =>
        simp only [List.getElem?_cons_zero]
        intro hcon
        exact hx (by simpa using hcon)
      | succ m' =>
        simpa using h2 m' (by omega)

/-- Witness for C6 (amended): in the depot row `[0, 1, 1]` of `dupAssign`,
the selected next node is index 1 and no earlier index holds 1. -/
theorem C6_first_match_witness :
    ([0, 1, 1] : List Int)[1]? = some 1 ∧
    ∀ m, m < 1 → ([0, 1, 1] : List Int)[m]? ≠ some 1 :=
  C6_first_match [0, 1, 1] 1 (by rfl)

/-! ## Claim C7: no post-decode validation -/

/-- C7 counterexample: under `skipAssign` on `inst7` the decode succeeds and
returns `[[0, 1, 0]]` with no error, although customer 2 (a genuine
non-depot customer) appears in no route and the single route's load 2
exceeds the vehicle capacity 1. -/
theorem C7_no_validation_counterexample :
    decodeAll skipAssign (nC inst7) (nV inst7) 9 = some [[0, 1, 0]] ∧
    customerCount [[0, 1, 0]] 2 = 0 ∧
    2 < nC inst7 ∧
    inst7.vehicle_capacity < routeLoad inst7 [0, 1, 0] := by
  refine ⟨rfl, by decide, by decide, by decide⟩

theorem decodeVehicles_length (σ : Nat → Nat → Nat → Int) (n fuel : Nat) :
    ∀ (vs : List Nat) (rs : List (List Nat)),
      decodeVehicles σ n fuel vs = some rs → rs.length = vs.length := by
  intro vs
  induction vs with
  | nil =>
    intro rs h
    simp only [decodeVehicles, Option.some.injEq] at h
    simp [← h]
  | cons v vs ih =>
    intro rs h
    simp only [decodeVehicles] at h
    cases hdv : decodeVehicle σ n v fuel with
    | closed r =>
      rw [hdv] at h
      rcases Option.map_eq_some'.mp h with ⟨rest, hrest, hrs⟩
      subst hrs
      simp [ih rest hrest]
    | noArc a => rw [hdv] at h; cases h
    | running a => rw [hdv] at h; cases h

/-- C7 (amended): the decoder performs NO validation after tracing: when
decoding succeeds it returns exactly one route per vehicle slot,
unconditionally — it never rejects a result for a coverage, capacity or
distance/objective violation (indeed `decodeAll` is not even given the
demands, the capacity or the objective value). -/
theorem C7_decode_returns_all_routes_unchecked (σ : Nat → Nat → Nat → Int)
    (n numv fuel : Nat) (rs : List (List Nat))
    (h : decodeAll σ n numv fuel = some rs) : rs.length = numv := by
  have := decodeVehicles_length σ n fuel (List.range numv) rs h
  simpa using this

/-- Witness for C7 (amended) on the coverage-violating decode. -/
theorem C7_decode_returns_all_routes_unchecked_witness :
    ([[0, 1, 0]] : List (List Nat)).length = nV inst7 :=
  C7_decode_returns_all_routes_unchecked skipAssign (nC inst7) (nV inst7) 9
    [[0, 1, 0]] (by rfl)

/-! ## Claim C8: unused vehicles -/

theorem decodeVehicles_get (σ : Nat → Nat → Nat → Int) (n fuel : Nat) :
    ∀ (vs : List Nat) (rs : List (List Nat)),
      decodeVehicles σ n fuel vs = some rs →
      ∀ (t v : Nat), vs[t]? = some v →
        ∃ r, decodeVehicle σ n v fuel = TraceResult.closed r ∧ rs[t]? = some r := by
  intro vs
  induction vs with
  | nil =>
    intro rs _ t v hv
    simp at hv
  | cons v0 vs ih =>
    intro rs h t v hv
    simp only [decodeVehicles] at h
    cases hdv : decodeVehicle σ n v0 fuel with
    | closed r =>
      rw [hdv] at h
      rcases Option.map_eq_some'.mp h with ⟨rest, hrest, hrs⟩
      subst hrs
      cases t with
      | zero =>
        have : v0 = v := by simpa using hv
        subst this
        exact ⟨r, hdv, by simp⟩
      | succ t' =>
        have hv' : vs[t']? = some v := by simpa using hv
        obtain ⟨r', hr', hg⟩ := ih rest hrest t' v hv'
        exact ⟨r', hr', by simpa using hg⟩
    | noArc a => rw [hdv] at h; cases h
    | running a => rw [hdv] at h; cases h

/-- C8: if the assignment selects no arc out of the depot for vehicle `v`
(all `edgeVar[v][0][j]` are 0), the decoder emits exactly the trivial route
`[0, 0]` — for any iteration budget — whose derived load and distance are 0,
and the full decode (when it succeeds) carries `[0, 0]` at exactly the
vehicle-`v` slot, moving on to the other vehicles. -/
theorem C8_unused_vehicle (p : VRPInstance) (σ : Nat → Nat → Nat → Int)
    (v fuel : Nat) (h : ∀ j, j < nC p → σ v 0 j = 0) :
    decodeVehicle σ (nC p) v fuel = TraceResult.closed [0, 0] ∧
    routeLoad p [0, 0] = 0 ∧
    routeDistance p [0, 0] = 0 ∧
    ∀ numv rs, v < numv → decodeAll σ (nC p) numv fuel = some rs →
      rs[v]? = some [0, 0] := by
  have hno : ¬ (1 ∈ rowVals σ (nC p) v 0) := by
    intro hmem
    rcases List.mem_map.mp hmem with ⟨j, hj, hval⟩
    have := h j (List.mem_range.mp hj)
    omega
  have hdec : decodeVehicle σ (nC p) v fuel = TraceResult.closed [0, 0] := by
    unfold decodeVehicle
    rw [if_neg hno]
  refine ⟨hdec, ?_, ?_, ?_⟩
  · simp [routeLoad]
  · simp [routeDistance, VRPSolver.distance]
  · intro numv rs hv hall
    obtain ⟨r, hr, hg⟩ := decodeVehicles_get σ (nC p) fuel (List.range numv) rs hall
      v v (by simp [List.getElem?_range hv])
    rw [hdec] at hr
    have : [0, 0] = r := by simpa using hr
    rw [hg, ← this]

/-- Witness for C8: the all-zero assignment on `inst3`, vehicle 0, decodes
to the trivial route. -/
theorem C8_unused_vehicle_witness :
    decodeVehicle zeroAssign (nC inst3) 0 7 = TraceResult.closed [0, 0] ∧
    routeLoad inst3 [0, 0] = 0 :=
  ⟨(C8_unused_vehicle inst3 zeroAssign 0 7 (fun _ _ => rfl)).1,
   (C8_unused_vehicle inst3 zeroAssign 0 7 (fun _ _ => rfl)).2.1⟩
